import Mathlib

/-!
Shallow embedding of the pfm-ml transaction classifier:
synthetic-data generation (src/ml/data.py, src/utils/amount.py,
src/utils/date_and_time.py), feature derivation (src/ml/features.py,
src/predict.py, src/app/main.py), artifact save/load (src/ml/io.py,
src/predict.py) and the top-k ranking logic (src/app/main.py, src/predict.py).

Machine floats are modelled as exact rationals; the Python `random` module's
global Mersenne-Twister state is modelled as an explicit natural-number state
threaded through every sampling helper (the claims depend only on determinism
and on the ranges of the sampling helpers, never on the concrete stream).
-/

namespace PfmMl

/-- State of the process-wide pseudo-random generator (Python `random`). -/
abbrev RNG := ℕ

/-- One raw draw of the generator: a value in `[0, 2^31)` plus the successor
state (the Mersenne-Twister stream abstracted to a deterministic
state-transition function). -/
def rngNext (s : RNG) : ℕ × RNG :=
  let v := (s * 1103515245 + 12345) % 2 ^ 31
  (v, v)

/-- `random.seed(n)`: reset the generator state from a seed. -/
def seedRng (seed : ℕ) : RNG := seed % 2 ^ 31

/-- `random.choice(seq)`: uniform element of a non-empty sequence. On an
empty sequence CPython raises IndexError; the default `d` stands for that
branch, which is unreachable at every call site in this repository. -/
def pyChoice {α : Type} (l : List α) (d : α) (σ : RNG) : α × RNG :=
  (l.getD ((rngNext σ).1 % l.length) d, (rngNext σ).2)

/-- `random.randint(lo, hi)` for `lo ≤ hi`: uniform integer in `[lo, hi]`. -/
def pyRandint (lo hi : ℤ) (σ : RNG) : ℤ × RNG :=
  (lo + ((rngNext σ).1 : ℤ) % (hi - lo + 1), (rngNext σ).2)

/-- `random.uniform(lo, hi)`: `lo + (hi - lo) * u` with `u ∈ [0, 1)`, the
float fraction abstracted to an exact rational. -/
def pyUniform (lo hi : ℚ) (σ : RNG) : ℚ × RNG :=
  (lo + (hi - lo) * (((rngNext σ).1 : ℚ) / 2 ^ 31), (rngNext σ).2)

theorem rngNext_lt (σ : RNG) : (rngNext σ).1 < 2 ^ 31 := by
  unfold rngNext
  exact Nat.mod_lt _ (by norm_num)

theorem pyRandint_bounds (lo hi : ℤ) (h : lo ≤ hi) (σ : RNG) :
    lo ≤ (pyRandint lo hi σ).1 ∧ (pyRandint lo hi σ).1 ≤ hi := by
  have hpos : (0 : ℤ) < hi - lo + 1 := by omega
  have h1 : 0 ≤ ((rngNext σ).1 : ℤ) % (hi - lo + 1) :=
    Int.emod_nonneg _ (by omega)
  have h2 : ((rngNext σ).1 : ℤ) % (hi - lo + 1) < hi - lo + 1 :=
    Int.emod_lt_of_pos _ hpos
  unfold pyRandint
  constructor
  · omega
  · omega

theorem pyChoice_mem {α : Type} (l : List α) (d : α) (σ : RNG) (h : l ≠ []) :
    (pyChoice l d σ).1 ∈ l := by
  have hlen : 0 < l.length := List.length_pos.mpr h
  have hlt : (rngNext σ).1 % l.length < l.length := Nat.mod_lt _ hlen
  unfold pyChoice
  rw [List.getD_eq_getElem l d hlt]
  exact List.getElem_mem hlt

theorem pyUniform_bounds (lo hi : ℚ) (h : lo ≤ hi) (σ : RNG) :
    lo ≤ (pyUniform lo hi σ).1 ∧ (pyUniform lo hi σ).1 ≤ hi := by
  have hv : ((rngNext σ).1 : ℚ) < 2 ^ 31 := by
    exact_mod_cast rngNext_lt σ
  have hv0 : (0 : ℚ) ≤ ((rngNext σ).1 : ℚ) := Nat.cast_nonneg _
  have hfrac0 : (0 : ℚ) ≤ ((rngNext σ).1 : ℚ) / 2 ^ 31 :=
    div_nonneg hv0 (by norm_num)
  have hfrac1 : ((rngNext σ).1 : ℚ) / 2 ^ 31 ≤ 1 := by
    rw [div_le_one (by norm_num)]
    linarith
  have hd : (0 : ℚ) ≤ hi - lo := by linarith
  unfold pyUniform
  constructor
  · nlinarith
  · nlinarith

/-! ### Python `round` (banker's rounding) on exact rationals -/

/-- Round a rational to the nearest integer, ties to even (the rounding mode
of Python's built-in `round`). -/
def roundHalfEven (q : ℚ) : ℤ :=
  if q - ⌊q⌋ < 1 / 2 then ⌊q⌋
  else if 1 / 2 < q - ⌊q⌋ then ⌊q⌋ + 1
  else if Even ⌊q⌋ then ⌊q⌋ else ⌊q⌋ + 1

/-- Python `round(x, n)` for `n ≥ 0` on the exact-rational model. -/
def pyRound (q : ℚ) (n : ℕ) : ℚ :=
  (roundHalfEven (q * 10 ^ n) : ℚ) / 10 ^ n

theorem floor_le_roundHalfEven (q : ℚ) : ⌊q⌋ ≤ roundHalfEven q := by
  unfold roundHalfEven
  split
  · exact le_refl _
  · split
    · omega
    · split <;> omega

theorem roundHalfEven_cases (q : ℚ) :
    roundHalfEven q = ⌊q⌋ ∨ roundHalfEven q = ⌊q⌋ + 1 := by
  unfold roundHalfEven
  split
  · exact Or.inl rfl
  · split
    · exact Or.inr rfl
    · split
      · exact Or.inl rfl
      · exact Or.inr rfl

theorem roundHalfEven_eq_floor_add_one_imp (q : ℚ)
    (h : roundHalfEven q = ⌊q⌋ + 1) : (1 : ℚ) / 2 ≤ q - ⌊q⌋ := by
  by_contra hc
  push_neg at hc
  unfold roundHalfEven at h
  rw [if_pos hc] at h
  omega

theorem le_roundHalfEven (m : ℤ) (q : ℚ) (h : (m : ℚ) ≤ q) :
    m ≤ roundHalfEven q := by
  have : m ≤ ⌊q⌋ := Int.le_floor.mpr h
  have := floor_le_roundHalfEven q
  omega

theorem roundHalfEven_le (m : ℤ) (q : ℚ) (h : q ≤ (m : ℚ)) :
    roundHalfEven q ≤ m := by
  have hfl : ⌊q⌋ ≤ m := by
    have : ⌊q⌋ ≤ ⌊(m : ℚ)⌋ := Int.floor_le_floor h
    simpa using this
  rcases roundHalfEven_cases q with hc | hc
  · omega
  · rw [hc]
    by_contra hlt
    push_neg at hlt
    have hm : ⌊q⌋ = m := by omega
    have h2 := roundHalfEven_eq_floor_add_one_imp q hc
    have h3 : (⌊q⌋ : ℚ) ≤ q := Int.floor_le q
    rw [hm] at h2
    linarith

theorem pyRound_mul_den (q : ℚ) (n : ℕ) : (pyRound q n * 10 ^ n).den = 1 := by
  unfold pyRound
  have h10 : (10 : ℚ) ^ n ≠ 0 := by positivity
  rw [div_mul_cancel₀ _ h10]
  exact Rat.den_intCast _

theorem le_pyRound (a q : ℚ) (n : ℕ) (ha : (a * 10 ^ n).den = 1)
    (h : a ≤ q) : a ≤ pyRound q n := by
  have h10 : (0 : ℚ) < 10 ^ n := by positivity
  have hint : ((a * 10 ^ n).num : ℚ) = a * 10 ^ n :=
    Rat.coe_int_num_of_den_eq_one ha
  have hle : a * 10 ^ n ≤ q * 10 ^ n := by
    exact mul_le_mul_of_nonneg_right h (le_of_lt h10)
  have h1 : ((a * 10 ^ n).num : ℚ) ≤ q * 10 ^ n := by rw [hint]; exact hle
  have h2 : (a * 10 ^ n).num ≤ roundHalfEven (q * 10 ^ n) :=
    le_roundHalfEven _ _ h1
  have h3 : ((a * 10 ^ n).num : ℚ) ≤ (roundHalfEven (q * 10 ^ n) : ℚ) := by
    exact_mod_cast h2
  rw [hint] at h3
  unfold pyRound
  rw [le_div_iff₀ h10]
  exact h3

theorem pyRound_le (q b : ℚ) (n : ℕ) (hb : (b * 10 ^ n).den = 1)
    (h : q ≤ b) : pyRound q n ≤ b := by
  have h10 : (0 : ℚ) < 10 ^ n := by positivity
  have hint : ((b * 10 ^ n).num : ℚ) = b * 10 ^ n :=
    Rat.coe_int_num_of_den_eq_one hb
  have hle : q * 10 ^ n ≤ b * 10 ^ n := by
    exact mul_le_mul_of_nonneg_right h (le_of_lt h10)
  have h1 : q * 10 ^ n ≤ ((b * 10 ^ n).num : ℚ) := by rw [hint]; exact hle
  have h2 : roundHalfEven (q * 10 ^ n) ≤ (b * 10 ^ n).num :=
    roundHalfEven_le _ _ h1
  have h3 : (roundHalfEven (q * 10 ^ n) : ℚ) ≤ ((b * 10 ^ n).num : ℚ) := by
    exact_mod_cast h2
  rw [hint] at h3
  unfold pyRound
  rw [div_le_iff₀ h10]
  exact h3

/-! ### Calendar arithmetic (the datetime/pandas layer)

Proleptic-Gregorian day counting after Howard Hinnant's `days_from_civil` /
`civil_from_days`, the algorithms underlying the C++/Python datetime stacks.
All dates this program touches are far past year 0, so the truncating `ℤ`
division used below coincides with the C semantics of the original. -/

/-- Days from a civil date to 1970-01-01. -/
def daysFromCivil (y m d : ℤ) : ℤ :=
  let y2 := if m ≤ 2 then y - 1 else y
  let era := (if 0 ≤ y2 then y2 else y2 - 399).tdiv 400
  let yoe := y2 - era * 400
  let doy := (153 * (m + (if 2 < m then -3 else 9)) + 2).tdiv 5 + d - 1
  let doe := yoe * 365 + yoe.tdiv 4 - yoe.tdiv 100 + doy
  era * 146097 + doe - 719468

/-- Civil date from days since 1970-01-01 (inverse of `daysFromCivil`). -/
def civilFromDays (z0 : ℤ) : ℤ × ℤ × ℤ :=
  let z := z0 + 719468
  let era := (if 0 ≤ z then z else z - 146096).tdiv 146097
  let doe := z - era * 146097
  let yoe := (doe - doe.tdiv 1460 + doe.tdiv 36524 - doe.tdiv 146096).tdiv 365
  let y := yoe + era * 400
  let doy := doe - (365 * yoe + yoe.tdiv 4 - yoe.tdiv 100)
  let mp := (5 * doy + 2).tdiv 153
  let d := doy - (153 * mp + 2).tdiv 5 + 1
  let m := mp + if mp < 10 then 3 else -9
  (if m ≤ 2 then y + 1 else y, m, d)

/-- A naive `datetime.datetime` at whole-hour precision — every datetime this
program constructs has zero minutes and seconds — as hours since
1970-01-01T00:00. -/
structure PyDateTime where
  totalHours : ℤ
deriving DecidableEq, Repr

/-- `datetime(y, m, d, h, 0, 0)`. -/
def mkDateTime (y m d h : ℤ) : PyDateTime :=
  ⟨daysFromCivil y m d * 24 + h⟩

/-- Two-digit zero padding used by `isoformat`. -/
def pad2 (n : ℤ) : String :=
  if n < 10 then "0" ++ toString n else toString n

/-- `datetime.isoformat(timespec="seconds")` for the whole-hour datetimes of
this program. -/
def isoformatSec (dt : PyDateTime) : String :=
  let day := dt.totalHours.fdiv 24
  let hour := dt.totalHours.emod 24
  let c := civilFromDays day
  toString c.1 ++ "-" ++ pad2 c.2.1 ++ "-" ++ pad2 c.2.2 ++ "T" ++
    pad2 hour ++ ":00:00"

/-! ### The configuration registry (src/settings.py) -/

/-- Per-category vocabulary (src/settings.py `VocabEntry`). -/
structure VocabEntry where
  merchants : List String
  desc : List String
deriving DecidableEq, Repr

/-- Inclusive absolute range and sign of a sampled amount
(src/settings.py `AmountSpec`). -/
structure AmountSpec where
  low : ℚ
  high : ℚ
  sign : ℤ
deriving DecidableEq, Repr

/-- Synthetic-datetime generation parameters (src/settings.py `TimeSettings`). -/
structure TimeSettings where
  base_date : PyDateTime
  hour_choices : List (String × List ℤ)
  default_hour_range : ℤ × ℤ
  day_offset_range : ℤ × ℤ
deriving DecidableEq, Repr

/-- Top-level settings container (src/settings.py `Settings`); the model
hyperparameters are out of the embedded core. -/
structure Settings where
  categories : List String
  vocab : List (String × VocabEntry)
  amounts : List (String × AmountSpec)
  default_amount : AmountSpec
  default_ndigits : ℤ
  time : TimeSettings
  seed : ℕ
deriving DecidableEq, Repr

/-- The literal `SETTINGS` value of src/settings.py. -/
def SETTINGS : Settings :=
  { categories := ["Groceries", "Transport", "Dining & Coffee", "Entertainment",
      "Bills & Utilities", "Health & Fitness", "Shopping", "Income", "Other"]
    vocab := [
      ("Groceries", ⟨["Tesco", "Sainsbury\x27s", "ALDI", "LIDL", "ASDA", "Co-op", "Morrisons"],
        ["groceries", "weekly shop", "food basket", "fresh produce"]⟩),
      ("Transport", ⟨["Uber", "Bolt", "ScotRail", "TFL", "Shell", "BP", "Stagecoach"],
        ["ride home", "bus ticket", "train to work", "petrol", "diesel"]⟩),
      ("Dining & Coffee", ⟨["Starbucks", "Costa", "Caffè Nero", "KFC", "McDonalds", "Dominos"],
        ["morning latte", "burger meal", "pizza deal", "americano", "lunch"]⟩),
      ("Entertainment", ⟨["Netflix", "Spotify", "Steam", "Cineworld", "Disney+"],
        ["subscription", "movie ticket", "monthly sub", "premium plan"]⟩),
      ("Bills & Utilities", ⟨["Vodafone", "O2", "EE", "BT", "British Gas", "Octopus Energy"],
        ["mobile bill", "broadband", "energy bill", "council tax"]⟩),
      ("Health & Fitness", ⟨["Boots", "NHS", "PureGym", "The Gym Group", "Holland & Barrett"],
        ["pharmacy", "gym membership", "vitamins", "healthcare"]⟩),
      ("Shopping", ⟨["Amazon", "eBay", "Argos", "Currys", "Primark", "IKEA"],
        ["online order", "charger", "home goods", "t-shirt", "accessories"]⟩),
      ("Income", ⟨["Payroll", "ACME LTD", "Company Ltd", "Employer Ltd", "HSBC"],
        ["monthly salary", "PAYROLL BACS CREDIT", "wage", "payslip"]⟩),
      ("Other", ⟨["Local Market", "HSBC", "Barclays", "NatWest", "Halifax", "Monzo"],
        ["card payment", "transfer", "fee", "charge", "misc purchase"]⟩)]
    amounts := [
      ("Groceries", ⟨8, 120, -1⟩),
      ("Transport", ⟨3, 70, -1⟩),
      ("Dining & Coffee", ⟨2, 30, -1⟩),
      ("Entertainment", ⟨4, 20, -1⟩),
      ("Bills & Utilities", ⟨20, 500, -1⟩),
      ("Health & Fitness", ⟨3, 120, -1⟩),
      ("Shopping", ⟨5, 500, -1⟩),
      ("Income", ⟨800, 2500, 1⟩)]
    default_amount := ⟨1, 80, -1⟩
    default_ndigits := 2
    time :=
      { base_date := mkDateTime 2025 8 15 0
        hour_choices := [
          ("Transport", [7, 8, 9, 22, 23, 0, 1]),
          ("Dining & Coffee", [8, 12, 13, 18, 19]),
          ("Entertainment", [19, 20, 21, 22])]
        default_hour_range := (8, 21)
        day_offset_range := (0, 13) }
    seed := 42 }

/-! ### src/utils/amount.py -/

/-- `choose_random_amount(lower_bound, upper_bound, decimal_places, sign=...)`:
normalize inverted bounds, sample uniformly, apply sign, round.
`.error` models the raised ValueError. -/
def choose_random_amount (lower_bound upper_bound : ℚ)
    (decimal_places : Option ℤ) (sign : ℤ) (σ : RNG) :
    Except String (ℚ × RNG) :=
  let dp := decimal_places.getD SETTINGS.default_ndigits
  if dp < 0 then .error "decimal_places must be >= 0"
  else
    let lo := if upper_bound < lower_bound then upper_bound else lower_bound
    let hi := if upper_bound < lower_bound then lower_bound else upper_bound
    .ok (pyRound ((sign : ℚ) * (pyUniform lo hi σ).1) dp.toNat,
      (pyUniform lo hi σ).2)

/-- `get_amount_spec(category)`: per-category spec or the default. -/
def get_amount_spec (category : String) : AmountSpec :=
  (SETTINGS.amounts.lookup category).getD SETTINGS.default_amount

/-- `rand_amount(category, decimal_places)`. -/
def rand_amount (category : String) (decimal_places : Option ℤ) (σ : RNG) :
    Except String (ℚ × RNG) :=
  let spec := get_amount_spec category
  choose_random_amount spec.low spec.high decimal_places spec.sign σ

/-! ### src/utils/date_and_time.py -/

/-- The two overloads of `choose_random_hour`: a sequence of candidate hours,
or an inclusive range. -/
inductive HourArg where
  | seq (hours : List ℤ)
  | range (start_inclusive end_inclusive : ℤ)
deriving DecidableEq, Repr

/-- `choose_random_hour`: pick from the sequence or the (normalized) inclusive
range, then reject any hour outside `0..23`. `.error` models the raised
ValueError. -/
def choose_random_hour (arg : HourArg) (σ : RNG) : Except String (ℤ × RNG) :=
  match arg with
  | .seq hours =>
      if hours.isEmpty then .error "hours sequence must not be empty"
      else
        let h := (pyChoice hours 0 σ).1
        if 0 ≤ h ∧ h ≤ 23 then .ok (h, (pyChoice hours 0 σ).2)
        else .error "hour must be within 0..23"
  | .range s e =>
      let lo := if s > e then e else s
      let hi := if s > e then s else e
      let h := (pyRandint lo hi σ).1
      if 0 ≤ h ∧ h ≤ 23 then .ok (h, (pyRandint lo hi σ).2)
      else .error "hour must be within 0..23"

/-- `choose_random_day(start, end)`: random offset in the normalized inclusive
range. -/
def choose_random_day (start_day_offset_inclusive end_day_offset_inclusive : ℤ)
    (σ : RNG) : ℤ × RNG :=
  let lo := if start_day_offset_inclusive > end_day_offset_inclusive
    then end_day_offset_inclusive else start_day_offset_inclusive
  let hi := if start_day_offset_inclusive > end_day_offset_inclusive
    then start_day_offset_inclusive else end_day_offset_inclusive
  pyRandint lo hi σ

/-- `use_date_offset(start_datetime, days_offset, hours_offset)`:
`start + timedelta(days, hours)` (carries normalize automatically). -/
def use_date_offset (start_datetime : PyDateTime) (days_offset hours_offset : ℤ) :
    PyDateTime :=
  ⟨start_datetime.totalHours + 24 * days_offset + hours_offset⟩

/-- The hour-selection step of `rand_time`: the per-category fixed choices if
present in `SETTINGS.time.hour_choices`, else the default inclusive range. -/
def rand_time_hour (category : String) (σ : RNG) : Except String (ℤ × RNG) :=
  match SETTINGS.time.hour_choices.lookup category with
  | some hours => choose_random_hour (.seq hours) σ
  | none => choose_random_hour
      (.range SETTINGS.time.default_hour_range.1 SETTINGS.time.default_hour_range.2) σ

/-- `rand_time(category)`: hour, then day offset, then
`base_date + offsets` rendered as an ISO-8601 string at seconds precision. -/
def rand_time (category : String) (σ : RNG) : Except String (String × RNG) :=
  match rand_time_hour category σ with
  | .error e => .error e
  | .ok (selected_hour, σ1) =>
      let day := choose_random_day SETTINGS.time.day_offset_range.1
        SETTINGS.time.day_offset_range.2 σ1
      .ok (isoformatSec
        (use_date_offset SETTINGS.time.base_date day.1 selected_hour), day.2)

/-! ### src/ml/data.py -/

instance {ε α : Type} [DecidableEq ε] [DecidableEq α] :
    DecidableEq (Except ε α) := fun a b =>
  match a, b with
  | .ok x, .ok y =>
      if h : x = y then .isTrue (congrArg Except.ok h)
      else .isFalse (fun hc => h (Except.ok.inj hc))
  | .error x, .error y =>
      if h : x = y then .isTrue (congrArg Except.error h)
      else .isFalse (fun hc => h (Except.error.inj hc))
  | .ok _, .error _ => .isFalse (fun hc => Except.noConfusion hc)
  | .error _, .ok _ => .isFalse (fun hc => Except.noConfusion hc)

/-- One raw synthetic transaction record. -/
structure Row where
  date : String
  merchant : String
  description : String
  amount : ℚ
  label : String
deriving DecidableEq, Repr

/-- Extract the payload of an `Except` whose error branch is unreachable at
the call site (a Python exception would propagate there; the lemmas
`rand_time_ok` and `rand_amount_ok` below discharge unreachability under the
configured settings). -/
def okOr {α : Type} (e : Except String α) (d : α) : α :=
  match e with
  | .ok a => a
  | .error _ => d

/-- The loop body of `synthesize_rows_for_category`: one row per iteration,
consuming the random stream in source order — merchant choice, description
choice, `rand_time`, `rand_amount`. -/
def synthRowsAux (category : String) (entry : VocabEntry) :
    ℕ → RNG → List Row × RNG
  | 0, σ => ([], σ)
  | n + 1, σ =>
      let m := pyChoice entry.merchants "" σ
      let d := pyChoice entry.desc "" m.2
      let t := okOr (rand_time category d.2) ("", d.2)
      let a := okOr (rand_amount category none t.2) (0, t.2)
      let rest := synthRowsAux category entry n a.2
      (⟨t.1, m.1, d.1, a.1, category⟩ :: rest.1, rest.2)

/-- `synthesize_rows_for_category(category, rows_count, vocab)`. The
`vocab[category]` dict indexing would raise KeyError for a category outside
the vocabulary; every category iterated by `synthesize_dataset` is present. -/
def synthesize_rows_for_category (category : String) (rows_count : ℕ)
    (vocab : List (String × VocabEntry)) (σ : RNG) : List Row × RNG :=
  synthRowsAux category ((vocab.lookup category).getD ⟨[], []⟩) rows_count σ

/-- The per-category loop of `synthesize_dataset`, in catalog order, with
`overrides.get(category, default_samples_per_category)` row counts. -/
def synthCatsLoop (vocab : List (String × VocabEntry)) (default_n : ℕ)
    (overrides : List (String × ℕ)) : List String → RNG → List Row × RNG
  | [], σ => ([], σ)
  | c :: cs, σ =>
      let n := (overrides.lookup c).getD default_n
      let here := synthesize_rows_for_category c n vocab σ
      let rest := synthCatsLoop vocab default_n overrides cs here.2
      (here.1 ++ rest.1, rest.2)

/-- The four hand-authored edge-case records appended by
`synthesize_dataset`, in their literal order. -/
def edgeRows (σ : RNG) : List Row × RNG :=
  let t1 := okOr (rand_time "Income" σ) ("", σ)
  let t2 := okOr (rand_time "Entertainment" t1.2) ("", t1.2)
  let t3 := okOr (rand_time "Transport" t2.2) ("", t2.2)
  let t4 := okOr (rand_time "Other" t3.2) ("", t3.2)
  ([⟨t1.1, "HSBC", "PAYROLL BACS CREDIT", -1350, "Income"⟩,
    ⟨t2.1, "STREAMIO", "monthly subscription", (899 : ℚ) / 100, "Entertainment"⟩,
    ⟨t3.1, "QuickRide", "late night ride", (112 : ℚ) / 10, "Transport"⟩,
    ⟨t4.1, "HSBC", "card payment", (2499 : ℚ) / 100, "Other"⟩], t4.2)

/-- `synthesize_dataset(default_samples_per_category, per_category_overrides,
seed)`: seed the generator when a seed is given, emit the per-category block
in catalog order, then the edge-case records. The empty override list models
the Python `None` default (`overrides or` an empty dict). -/
def synthesize_dataset (default_samples_per_category : ℕ)
    (per_category_overrides : List (String × ℕ)) (seed : Option ℕ)
    (σ0 : RNG) : List Row × RNG :=
  let σ := match seed with
    | some s => seedRng s
    | none => σ0
  let block := synthCatsLoop SETTINGS.vocab default_samples_per_category
    per_category_overrides SETTINGS.categories σ
  let extra := edgeRows block.2
  (block.1 ++ extra.1, extra.2)

/-! ### Feature derivation (src/ml/features.py, src/predict.py, src/app/main.py) -/

/-- A parsed `pandas.Timestamp`. -/
structure PdTimestamp where
  year : ℤ
  month : ℤ
  day : ℤ
  hour : ℤ
  minute : ℤ
  second : ℤ
deriving DecidableEq, Repr

/-- `Timestamp.dayofweek`: Monday = 0 … Sunday = 6. -/
def PdTimestamp.dayofweek (t : PdTimestamp) : ℤ :=
  (daysFromCivil t.year t.month t.day + 3).emod 7

def digitVal (c : Char) : Option ℕ :=
  if c.isDigit then some (c.toNat - 48) else none

def parse2 (a b : Char) : Option ℕ := do
  let x ← digitVal a
  let y ← digitVal b
  pure (10 * x + y)

/-- `pd.to_datetime` on one string, restricted to the ISO-8601 layout
`YYYY-MM-DDTHH:MM:SS` that this program documents, produces and consumes;
`none` models both the NaT of `errors="coerce"` and the exception raised
without it. -/
def parseIso (s : String) : Option PdTimestamp :=
  match s.toList with
  | [y1, y2, y3, y4, s1, mo1, mo2, s2, d1, d2, s3, h1, h2, s4, mi1, mi2, s5, se1, se2] =>
      if s1 = '-' ∧ s2 = '-' ∧ s3 = 'T' ∧ s4 = ':' ∧ s5 = ':' then do
        let ya ← parse2 y1 y2
        let yb ← parse2 y3 y4
        let mo ← parse2 mo1 mo2
        let d ← parse2 d1 d2
        let h ← parse2 h1 h2
        let mi ← parse2 mi1 mi2
        let se ← parse2 se1 se2
        if 1 ≤ mo ∧ mo ≤ 12 ∧ 1 ≤ d ∧ d ≤ 31 ∧ h ≤ 23 ∧ mi ≤ 59 ∧ se ≤ 59 then
          some ⟨100 * (ya : ℤ) + yb, mo, d, h, mi, se⟩
        else none
      else none
  | _ => none

/-- `DEFAULT_ISO_DATETIME`, identical in src/predict.py and src/app/main.py. -/
def DEFAULT_ISO_DATETIME : String := "2025-08-24T09:00:00"

/-- The `{hour, day_of_week, is_weekend}` triple. -/
structure TimeFeats where
  hour : ℤ
  day_of_week : ℤ
  is_weekend : ℤ
deriving DecidableEq, Repr

def timeFeatsOf (ts : PdTimestamp) : TimeFeats :=
  ⟨ts.hour, ts.dayofweek, if 5 ≤ ts.dayofweek then 1 else 0⟩

/-- `add_time_features` (src/predict.py), line-identical to
`_add_time_features` (src/app/main.py): coerce-parse the string and fall back
to `DEFAULT_ISO_DATETIME` on failure. The `getD` default stands for the
unreachable failure of parsing the literal default timestamp. -/
def add_time_features (iso_datetime : String) : TimeFeats :=
  timeFeatsOf <|
    match parseIso iso_datetime with
    | some ts => ts
    | none => (parseIso DEFAULT_ISO_DATETIME).getD ⟨1970, 1, 1, 0, 0, 0⟩

/-- One row of the feature table, in the fixed training column order
`[combined_text, merchant_text, amount, hour, day_of_week, is_weekend]`. -/
structure FeatureRecord where
  combined_text : String
  merchant_text : String
  amount : ℚ
  hour : ℤ
  day_of_week : ℤ
  is_weekend : ℤ
deriving DecidableEq, Repr

/-- `build_feature_row` (src/predict.py), line-identical to
`_build_feature_row` (src/app/main.py): the serving-path feature derivation. -/
def build_feature_row (merchant description : String) (amount : ℚ)
    (iso_datetime : String) : FeatureRecord :=
  let t := add_time_features iso_datetime
  ⟨(merchant ++ " " ++ description).toLower, merchant.toLower, amount,
    t.hour, t.day_of_week, t.is_weekend⟩

/-- A raw transaction as synthesized (label kept separately). -/
structure RawTransaction where
  date : String
  merchant : String
  description : String
  amount : ℚ
deriving DecidableEq, Repr

/-- `extract_time_features` (src/ml/features.py): `pd.to_datetime` on the
date column WITHOUT `errors="coerce"` — one unparseable string raises for
the whole batch, modelled as `none`. -/
def extract_time_features : List String → Option (List TimeFeats)
  | [] => some []
  | s :: rest =>
      match parseIso s, extract_time_features rest with
      | some ts, some fs => some (timeFeatsOf ts :: fs)
      | _, _ => none

/-- The training-path feature table: `build_feature_dataframe` +
`add_text_features` + `get_feature_matrix_and_labels` (src/ml/features.py),
per-row; `none` when timestamp parsing raises. -/
def batch_feature_rows (rows : List RawTransaction) :
    Option (List FeatureRecord) :=
  match extract_time_features (rows.map (fun r => r.date)) with
  | some tf => some ((rows.zip tf).map (fun rt =>
      ⟨(rt.1.merchant ++ " " ++ rt.1.description).toLower, rt.1.merchant.toLower,
        rt.1.amount, rt.2.hour, rt.2.day_of_week, rt.2.is_weekend⟩))
  | none => none

/-! ### Artifacts (src/ml/io.py, src/predict.py) -/

/-- The final estimator of the sklearn pipeline: `classes_` is present
exactly when the classifier has been fitted. -/
structure SkClassifier where
  classes_ : Option (List String)
deriving DecidableEq, Repr

/-- The sklearn `Pipeline` surface the serving code touches:
`named_steps` (absent for a non-pipeline object), `predict_proba` when the
model supports probability output, and plain `predict`. -/
structure SkPipeline where
  named_steps : Option (List (String × SkClassifier))
  predict_proba : Option (FeatureRecord → List ℚ)
  predict : FeatureRecord → String

/-- What `pickle.load` can yield: the structured `{"pipeline":…, "labels":…}`
container written by `save_artifacts`, or a bare pipeline object. -/
inductive Payload where
  | dict (pipeline : SkPipeline) (labels : List String)
  | bare (pipeline : SkPipeline)

/-- `save_artifacts(pipeline, labels)` (src/ml/io.py): one container holding
the pipeline and the label list. -/
def save_artifacts (pipeline : SkPipeline) (labels : List String) : Payload :=
  .dict pipeline labels

/-- `load_pipeline` (src/predict.py), identical to the payload handling of
`load_model` (src/app/main.py): `payload["pipeline"]` from a dict container,
else the payload itself. -/
def load_pipeline (payload : Payload) : SkPipeline :=
  match payload with
  | .dict p _ => p
  | .bare p => p

/-- `get_class_names` (src/predict.py): `classes_` of the final step named
"classifier", else `None`. -/
def get_class_names (pipeline : SkPipeline) : Option (List String) :=
  match pipeline.named_steps with
  | some steps =>
      match steps.lookup "classifier" with
      | some clf => clf.classes_
      | none => none
  | none => none

/-! ### The top-k ranker (src/app/main.py `predict`, src/predict.py `main`) -/

/-- `i ≼ j` in the ascending stable argsort of `p`: strictly smaller key, or
equal keys with `i` at the earlier original position. numpy's stable argsort
of `p` is the unique permutation of `range n` sorted by this linear order. -/
def argKeyLe (p : List ℚ) (i j : ℕ) : Prop :=
  p.getD i 0 < p.getD j 0 ∨ (p.getD i 0 = p.getD j 0 ∧ i ≤ j)

instance (p : List ℚ) : DecidableRel (argKeyLe p) := fun i j => by
  unfold argKeyLe
  infer_instance

instance (p : List ℚ) : IsTotal ℕ (argKeyLe p) := by
  constructor
  intro i j
  unfold argKeyLe
  rcases lt_trichotomy (p.getD i 0) (p.getD j 0) with h | h | h
  · exact Or.inl (Or.inl h)
  · rcases Nat.le_total i j with hij | hij
    · exact Or.inl (Or.inr ⟨h, hij⟩)
    · exact Or.inr (Or.inr ⟨h.symm, hij⟩)
  · exact Or.inr (Or.inl h)

instance (p : List ℚ) : IsTrans ℕ (argKeyLe p) := by
  constructor
  intro i j k hij hjk
  unfold argKeyLe at *
  rcases hij with h1 | ⟨h1, h1n⟩ <;> rcases hjk with h2 | ⟨h2, h2n⟩
  · exact Or.inl (h1.trans h2)
  · exact Or.inl (h2 ▸ h1)
  · exact Or.inl (h1 ▸ h2)
  · exact Or.inr ⟨h1.trans h2, h1n.trans h2n⟩

/-- `proba.argsort()` (stable, ascending). -/
def argsortAsc (p : List ℚ) : List ℕ :=
  List.insertionSort (argKeyLe p) (List.range p.length)

/-- `proba.argsort()[::-1]` as the serving code computes the ranking order. -/
def argsortDesc (p : List ℚ) : List ℕ :=
  (argsortAsc p).reverse

/-- `str(_class_names[i]) if _class_names else str(i)`: Python truthiness
makes both `None` and an empty list fall back to the decimal class index.
The `getD` default stands for an out-of-range IndexError, unreachable since
a fitted model's `classes_` matches the probability-vector length. -/
def categoryOf (class_names : Option (List String)) (i : ℕ) : String :=
  match class_names with
  | some ns => if ns.isEmpty then toString i else ns.getD i (toString i)
  | none => toString i

/-- The top-k construction shared verbatim by src/app/main.py `predict` and
src/predict.py `main`: descending argsort, `k = min(topk, len(proba))`,
then `(category, probability)` pairs. -/
def rank_topk (proba : List ℚ) (class_names : Option (List String))
    (topk : ℕ) : List (String × ℚ) :=
  ((argsortDesc proba).take (min topk proba.length)).map
    (fun i => (categoryOf class_names i, proba.getD i 0))

/-- `items[0]` / `topk[0]`, surfaced as the single best answer (IndexError on
an empty list, modelled by `Option`). -/
def rank_top1 (proba : List ℚ) (class_names : Option (List String))
    (topk : ℕ) : Option (String × ℚ) :=
  (rank_topk proba class_names topk).head?

/-! ### Helper lemmas about the ranker -/

theorem argsortAsc_sorted (p : List ℚ) :
    List.Sorted (argKeyLe p) (argsortAsc p) :=
  List.sorted_insertionSort _ _

theorem argsortAsc_perm (p : List ℚ) :
    (argsortAsc p).Perm (List.range p.length) :=
  List.perm_insertionSort _ _

theorem argsortDesc_perm (p : List ℚ) :
    (argsortDesc p).Perm (List.range p.length) :=
  (List.reverse_perm _).trans (argsortAsc_perm p)

theorem argsortDesc_length (p : List ℚ) :
    (argsortDesc p).length = p.length := by
  have h := (argsortDesc_perm p).length_eq
  simpa using h

theorem argsortDesc_sorted (p : List ℚ) :
    List.Sorted (fun i j => argKeyLe p j i) (argsortDesc p) := by
  unfold argsortDesc
  exact List.pairwise_reverse.mpr (argsortAsc_sorted p)

theorem rank_topk_length (proba : List ℚ) (class_names : Option (List String))
    (topk : ℕ) :
    (rank_topk proba class_names topk).length = min topk proba.length := by
  unfold rank_topk
  rw [List.length_map, List.length_take, argsortDesc_length]
  omega

theorem rank_topk_sorted (proba : List ℚ) (class_names : Option (List String))
    (topk : ℕ) :
    List.Sorted (fun a b : String × ℚ => b.2 ≤ a.2)
      (rank_topk proba class_names topk) := by
  unfold rank_topk
  have hp : List.Pairwise (fun i j => argKeyLe proba j i)
      ((argsortDesc proba).take (min topk proba.length)) :=
    List.Pairwise.sublist (List.take_sublist _ _) (argsortDesc_sorted proba)
  refine List.Pairwise.map _ (fun i j hij => ?_) hp
  rcases hij with h | ⟨h, _⟩
  · exact le_of_lt h
  · exact le_of_eq h

/-! ### Helper lemmas about amount sampling -/

theorem pyRound_bounds (a b x : ℚ) (n : ℕ) (ha : (a * 10 ^ n).den = 1)
    (hb : (b * 10 ^ n).den = 1) (h1 : a ≤ x) (h2 : x ≤ b) :
    a ≤ pyRound x n ∧ pyRound x n ≤ b :=
  ⟨le_pyRound a x n ha h1, pyRound_le x b n hb h2⟩

theorem neg_mul_den (q : ℚ) (n : ℕ) (h : (q * 10 ^ n).den = 1) :
    (-q * 10 ^ n).den = 1 := by
  rw [neg_mul]
  simpa using h

/-- Core behaviour of `choose_random_amount` when `decimal_places` validates:
returns `.ok`, the value is exact at the requested precision, and, whenever
both bounds are exactly representable at that precision, the value stays in
the sign-adjusted inclusive range. -/
theorem choose_random_amount_ok (lower_bound upper_bound : ℚ)
    (dpo : Option ℤ) (sign : ℤ) (σ : RNG) (hsign : sign = 1 ∨ sign = -1)
    (hdp : 0 ≤ dpo.getD SETTINGS.default_ndigits) :
    ∃ v σ2, choose_random_amount lower_bound upper_bound dpo sign σ = .ok (v, σ2) ∧
      (v * 10 ^ (dpo.getD SETTINGS.default_ndigits).toNat).den = 1 ∧
      ((lower_bound * 10 ^ (dpo.getD SETTINGS.default_ndigits).toNat).den = 1 →
       (upper_bound * 10 ^ (dpo.getD SETTINGS.default_ndigits).toNat).den = 1 →
        min ((sign : ℚ) * lower_bound) ((sign : ℚ) * upper_bound) ≤ v ∧
        v ≤ max ((sign : ℚ) * lower_bound) ((sign : ℚ) * upper_bound)) := by
  set dp := dpo.getD SETTINGS.default_ndigits with hdpdef
  set n := dp.toNat with hn
  unfold choose_random_amount
  rw [if_neg (not_lt.mpr hdp)]
  rw [← hdpdef, ← hn]
  by_cases hlt : upper_bound < lower_bound
  · simp only [if_pos hlt]
    have hu := pyUniform_bounds upper_bound lower_bound (le_of_lt hlt) σ
    refine ⟨_, _, rfl, pyRound_mul_den _ _, fun hl hh => ?_⟩
    rcases hsign with hs | hs
    · subst hs
      have hmin : min ((1 : ℤ) * lower_bound : ℚ) ((1 : ℤ) * upper_bound : ℚ)
          = upper_bound := by
        push_cast
        rw [one_mul, one_mul]
        exact min_eq_right (le_of_lt hlt)
      have hmax : max ((1 : ℤ) * lower_bound : ℚ) ((1 : ℤ) * upper_bound : ℚ)
          = lower_bound := by
        push_cast
        rw [one_mul, one_mul]
        exact max_eq_left (le_of_lt hlt)
      rw [hmin, hmax]
      have h1 : ((1 : ℤ) : ℚ) * (pyUniform upper_bound lower_bound σ).1
          = (pyUniform upper_bound lower_bound σ).1 := by push_cast; ring
      rw [h1]
      exact pyRound_bounds _ _ _ n hh hl hu.1 hu.2
    · subst hs
      have hmin : min (((-1 : ℤ) : ℚ) * lower_bound) (((-1 : ℤ) : ℚ) * upper_bound)
          = -lower_bound := by
        push_cast
        rw [neg_one_mul, neg_one_mul]
        exact min_eq_left (by linarith)
      have hmax : max (((-1 : ℤ) : ℚ) * lower_bound) (((-1 : ℤ) : ℚ) * upper_bound)
          = -upper_bound := by
        push_cast
        rw [neg_one_mul, neg_one_mul]
        exact max_eq_right (by linarith)
      rw [hmin, hmax]
      have h1 : (((-1 : ℤ) : ℚ)) * (pyUniform upper_bound lower_bound σ).1
          = -(pyUniform upper_bound lower_bound σ).1 := by push_cast; ring
      rw [h1]
      exact pyRound_bounds _ _ _ n (neg_mul_den _ _ hl) (neg_mul_den _ _ hh)
        (by linarith [hu.2]) (by linarith [hu.1])
  · simp only [if_neg hlt]
    push_neg at hlt
    have hu := pyUniform_bounds lower_bound upper_bound hlt σ
    refine ⟨_, _, rfl, pyRound_mul_den _ _, fun hl hh => ?_⟩
    rcases hsign with hs | hs
    · subst hs
      have hmin : min ((1 : ℤ) * lower_bound : ℚ) ((1 : ℤ) * upper_bound : ℚ)
          = lower_bound := by
        push_cast
        rw [one_mul, one_mul]
        exact min_eq_left hlt
      have hmax : max ((1 : ℤ) * lower_bound : ℚ) ((1 : ℤ) * upper_bound : ℚ)
          = upper_bound := by
        push_cast
        rw [one_mul, one_mul]
        exact max_eq_right hlt
      rw [hmin, hmax]
      have h1 : ((1 : ℤ) : ℚ) * (pyUniform lower_bound upper_bound σ).1
          = (pyUniform lower_bound upper_bound σ).1 := by push_cast; ring
      rw [h1]
      exact pyRound_bounds _ _ _ n hl hh hu.1 hu.2
    · subst hs
      have hmin : min (((-1 : ℤ) : ℚ) * lower_bound) (((-1 : ℤ) : ℚ) * upper_bound)
          = -upper_bound := by
        push_cast
        rw [neg_one_mul, neg_one_mul]
        exact min_eq_right (by linarith)
      have hmax : max (((-1 : ℤ) : ℚ) * lower_bound) (((-1 : ℤ) : ℚ) * upper_bound)
          = -lower_bound := by
        push_cast
        rw [neg_one_mul, neg_one_mul]
        exact max_eq_left (by linarith)
      rw [hmin, hmax]
      have h1 : (((-1 : ℤ) : ℚ)) * (pyUniform lower_bound upper_bound σ).1
          = -(pyUniform lower_bound upper_bound σ).1 := by push_cast; ring
      rw [h1]
      exact pyRound_bounds _ _ _ n (neg_mul_den _ _ hh) (neg_mul_den _ _ hl)
        (by linarith [hu.2]) (by linarith [hu.1])

/-! ### Helper lemmas about time sampling -/

theorem hour_choices_cases (category : String) (hours : List ℤ)
    (h : SETTINGS.time.hour_choices.lookup category = some hours) :
    hours = [7, 8, 9, 22, 23, 0, 1] ∨ hours = [8, 12, 13, 18, 19] ∨
      hours = [19, 20, 21, 22] := by
  unfold SETTINGS at h
  simp only [List.lookup] at h
  repeat' split at h
  all_goals simp_all

theorem choose_random_hour_seq (hours : List ℤ) (hne : hours ≠ [])
    (hb : ∀ x ∈ hours, 0 ≤ x ∧ x ≤ 23) (σ : RNG) :
    choose_random_hour (.seq hours) σ =
      .ok ((pyChoice hours 0 σ).1, (pyChoice hours 0 σ).2) ∧
    (pyChoice hours 0 σ).1 ∈ hours := by
  have hmem := pyChoice_mem hours 0 σ hne
  have hbd := hb _ hmem
  have hE : hours.isEmpty = false := by simpa using hne
  refine ⟨?_, hmem⟩
  simp only [choose_random_hour, hE]
  rw [if_pos hbd]
  simp

theorem choose_random_hour_range (s e : ℤ) (h0 : 0 ≤ s) (h0e : 0 ≤ e)
    (h23 : s ≤ 23) (h23e : e ≤ 23) (σ : RNG) :
    ∃ h σ2, choose_random_hour (.range s e) σ = .ok (h, σ2) ∧
      0 ≤ h ∧ h ≤ 23 := by
  unfold choose_random_hour
  by_cases hse : s > e
  · have hb := pyRandint_bounds e s (by omega) σ
    have hb2 : 0 ≤ (pyRandint e s σ).1 ∧ (pyRandint e s σ).1 ≤ 23 := by omega
    simp only [if_pos hse]
    rw [if_pos hb2]
    exact ⟨_, _, rfl, hb2⟩
  · have hse2 : s ≤ e := by omega
    have hb := pyRandint_bounds s e hse2 σ
    have hb2 : 0 ≤ (pyRandint s e σ).1 ∧ (pyRandint s e σ).1 ≤ 23 := by omega
    simp only [if_neg hse]
    rw [if_pos hb2]
    exact ⟨_, _, rfl, hb2⟩

/-- Under the configured settings, the hour-selection step of `rand_time`
never reaches either ValueError branch, stays in `[0, 23]`, and respects the
per-category candidate list when one is configured. -/
theorem rand_time_hour_spec (category : String) (σ : RNG) :
    ∃ h σ2, rand_time_hour category σ = .ok (h, σ2) ∧ 0 ≤ h ∧ h ≤ 23 ∧
      (∀ hours, SETTINGS.time.hour_choices.lookup category = some hours →
        h ∈ hours) := by
  unfold rand_time_hour
  cases hl : SETTINGS.time.hour_choices.lookup category with
  | some hours =>
      have hcases := hour_choices_cases category hours hl
      have hne : hours ≠ [] := by
        rcases hcases with h | h | h <;> simp [h]
      have hb : ∀ x ∈ hours, 0 ≤ x ∧ x ≤ 23 := by
        rcases hcases with h | h | h <;> subst h <;> decide
      obtain ⟨heq, hmem⟩ := choose_random_hour_seq hours hne hb σ
      refine ⟨_, _, heq, (hb _ hmem).1, (hb _ hmem).2, fun hs hseq => ?_⟩
      injection hseq with hseq
      rw [← hseq]
      exact hmem
  | none =>
      obtain ⟨h, σ2, heq, hb⟩ :=
        choose_random_hour_range SETTINGS.time.default_hour_range.1
          SETTINGS.time.default_hour_range.2 (by decide) (by decide)
          (by decide) (by decide) σ
      refine ⟨h, σ2, heq, hb.1, hb.2, fun hs hseq => ?_⟩
      exact absurd hseq (by simp)

/-- Under the configured settings `rand_time` never raises. -/
theorem rand_time_ok (category : String) (σ : RNG) :
    ∃ s σ2, rand_time category σ = .ok (s, σ2) := by
  obtain ⟨h, σ2, heq, _⟩ := rand_time_hour_spec category σ
  unfold rand_time
  rw [heq]
  exact ⟨_, _, rfl⟩

/-! ### Helper lemmas about per-category amount specs -/

theorem amount_spec_props (category : String) :
    ((get_amount_spec category).sign = 1 ∨ (get_amount_spec category).sign = -1) ∧
    ((get_amount_spec category).low * 10 ^ 2).den = 1 ∧
    ((get_amount_spec category).high * 10 ^ 2).den = 1 := by
  unfold get_amount_spec SETTINGS
  simp only [List.lookup]
  repeat' split
  all_goals norm_num

/-- Under the configured settings `rand_amount` never raises, returns a value
exact at two decimal places, and stays inside the sign-adjusted inclusive
range of the category's (or default) AmountSpec. -/
theorem rand_amount_ok (category : String) (σ : RNG) :
    ∃ v σ2, rand_amount category none σ = .ok (v, σ2) ∧
      (v * 10 ^ 2).den = 1 ∧
      min (((get_amount_spec category).sign : ℚ) * (get_amount_spec category).low)
          (((get_amount_spec category).sign : ℚ) * (get_amount_spec category).high) ≤ v ∧
      v ≤ max (((get_amount_spec category).sign : ℚ) * (get_amount_spec category).low)
          (((get_amount_spec category).sign : ℚ) * (get_amount_spec category).high) := by
  obtain ⟨hsign, hlden, hhden⟩ := amount_spec_props category
  obtain ⟨v, σ2, heq, hden, hbounds⟩ :=
    choose_random_amount_ok (get_amount_spec category).low
      (get_amount_spec category).high none (get_amount_spec category).sign σ
      hsign (by decide)
  refine ⟨v, σ2, heq, ?_, ?_⟩
  · simpa using hden
  · have := hbounds (by simpa using hlden) (by simpa using hhden)
    exact this

/-! ### Helper lemmas about the synthetic dataset -/

theorem synthRowsAux_label (category : String) (entry : VocabEntry) :
    ∀ (n : ℕ) (σ : RNG) (r : Row), r ∈ (synthRowsAux category entry n σ).1 →
      r.label = category := by
  intro n
  induction n with
  | zero =>
      intro σ r hr
      simp [synthRowsAux] at hr
  | succ n ih =>
      intro σ r hr
      simp only [synthRowsAux] at hr
      rcases List.mem_cons.mp hr with h | h
      · rw [h]
      · exact ih _ r h

theorem synthCatsLoop_label (vocab : List (String × VocabEntry)) (dn : ℕ)
    (ov : List (String × ℕ)) :
    ∀ (cats : List String) (σ : RNG) (r : Row),
      r ∈ (synthCatsLoop vocab dn ov cats σ).1 → r.label ∈ cats := by
  intro cats
  induction cats with
  | nil =>
      intro σ r hr
      simp [synthCatsLoop] at hr
  | cons c cs ih =>
      intro σ r hr
      simp only [synthCatsLoop] at hr
      rcases List.mem_append.mp hr with h | h
      · have hc := synthRowsAux_label c _ _ _ r
          (by simpa [synthesize_rows_for_category] using h)
        rw [hc]
        exact List.mem_cons_self _ _
      · exact List.mem_cons_of_mem _ (ih _ r h)

theorem edgeRows_label (σ : RNG) :
    ∀ r ∈ (edgeRows σ).1, r.label ∈ SETTINGS.categories := by
  intro r hr
  simp only [edgeRows, List.mem_cons, List.not_mem_nil, or_false] at hr
  rcases hr with h | h | h | h
  · subst h
    show "Income" ∈ SETTINGS.categories
    decide
  · subst h
    show "Entertainment" ∈ SETTINGS.categories
    decide
  · subst h
    show "Transport" ∈ SETTINGS.categories
    decide
  · subst h
    show "Other" ∈ SETTINGS.categories
    decide

/-! ### Helper lemma: the batch path agrees with the serving path on
parseable timestamps -/

theorem batch_feature_rows_eq (rows : List RawTransaction)
    (h : ∀ r ∈ rows, (parseIso r.date).isSome) :
    batch_feature_rows rows =
      some (rows.map (fun r =>
        build_feature_row r.merchant r.description r.amount r.date)) := by
  induction rows with
  | nil => rfl
  | cons r rs ih =>
      obtain ⟨ts, hts⟩ := Option.isSome_iff_exists.mp (h r (List.mem_cons_self _ _))
      have hrs := ih (fun x hx => h x (List.mem_cons_of_mem _ hx))
      unfold batch_feature_rows at hrs ⊢
      cases hE : extract_time_features (List.map (fun r => r.date) rs) with
      | none =>
          rw [hE] at hrs
          exact absurd hrs (by simp)
      | some tfs =>
          rw [hE] at hrs
          have hzip := Option.some.inj hrs
          simp only [List.map_cons, extract_time_features, hts, hE,
            List.zip_cons_cons]
          rw [hzip]
          have hhead : (⟨(r.merchant ++ " " ++ r.description).toLower,
              r.merchant.toLower, r.amount, (timeFeatsOf ts).hour,
              (timeFeatsOf ts).day_of_week, (timeFeatsOf ts).is_weekend⟩ :
                FeatureRecord) =
              build_feature_row r.merchant r.description r.amount r.date := by
            unfold build_feature_row add_time_features
            rw [hts]
          rw [← hhead]

/-! ## Claim theorems -/

set_option maxRecDepth 10000

/-- C1 (counterexample): the claim that the batch and single-record feature
derivations are the same function of the same inputs fails at an unparseable
timestamp: the training-path derivation raises (modelled `none`) while the
serving path silently returns a record built from the default instant. -/
theorem claim_C1_counterexample :
    batch_feature_rows [⟨"not-a-date", "Tesco", "groceries", 43⟩] = none ∧
    build_feature_row "Tesco" "groceries" 43 "not-a-date" =
      ⟨"tesco groceries", "tesco", 43, 9, 6, 1⟩ := by
  with_unfolding_all decide

/-- C1 (amended): whenever every timestamp in the batch parses, the batch
feature derivation used on the training path equals the serving-path
single-record derivation applied row-wise: identical combined_text,
merchant_text, amount, hour, day_of_week and is_weekend for every row. -/
theorem claim_C1_batch_serving_agree (rows : List RawTransaction)
    (h : ∀ r ∈ rows, (parseIso r.date).isSome) :
    batch_feature_rows rows =
      some (rows.map (fun r =>
        build_feature_row r.merchant r.description r.amount r.date)) :=
  batch_feature_rows_eq rows h

/-- C1 (witness): the end-to-end example of the spec, on both paths. -/
theorem claim_C1_witness :
    batch_feature_rows [⟨"2025-08-24T09:00:00", "Tesco", "groceries", 43⟩] =
      some [build_feature_row "Tesco" "groceries" 43 "2025-08-24T09:00:00"] ∧
    build_feature_row "Tesco" "groceries" 43 "2025-08-24T09:00:00" =
      ⟨"tesco groceries", "tesco", 43, 9, 6, 1⟩ :=
  ⟨by simpa using
      (claim_C1_batch_serving_agree
        [⟨"2025-08-24T09:00:00", "Tesco", "groceries", 43⟩] (by decide)),
   by with_unfolding_all decide⟩

/-- C2 (counterexample): the claimed silent fallback does NOT hold on the
training (batch) path: on an unparseable timestamp `extract_time_features`
raises (modelled `none`) instead of producing the default-instant features,
which the serving path does produce. -/
theorem claim_C2_counterexample :
    extract_time_features ["garbage"] = none ∧
    add_time_features "garbage" = ⟨9, 6, 1⟩ ∧
    add_time_features DEFAULT_ISO_DATETIME = ⟨9, 6, 1⟩ := by
  with_unfolding_all decide

/-- C2 (amended): on the serving path — identical in src/predict.py and
src/app/main.py — an unparseable timestamp silently yields exactly the
hour/day-of-week/is-weekend derived from the literal configured default
timestamp; the training (batch) path instead raises. -/
theorem claim_C2_serving_fallback (iso_datetime : String)
    (h : parseIso iso_datetime = none) :
    add_time_features iso_datetime = add_time_features DEFAULT_ISO_DATETIME := by
  unfold add_time_features
  rw [h]
  have hd : parseIso DEFAULT_ISO_DATETIME = some ⟨2025, 8, 24, 9, 0, 0⟩ := by
    with_unfolding_all decide
  rw [hd]
  rfl

/-- C2 (witness). -/
theorem claim_C2_witness :
    add_time_features "garbage" = add_time_features DEFAULT_ISO_DATETIME :=
  claim_C2_serving_fallback "garbage" (by with_unfolding_all decide)

/-- C3 (counterexample): with equal probabilities the ranked output puts the
HIGHER original index first: probabilities [0.5, 0.5] for classes [A, B]
rank B before A, contradicting the claimed lower-index-first tie-break. -/
theorem claim_C3_counterexample :
    rank_topk [1/2, 1/2] (some ["A", "B"]) 2 = [("B", 1/2), ("A", 1/2)] ∧
    rank_topk [1/2, 1/2] (some ["A", "B"]) 2 ≠ [("A", 1/2), ("B", 1/2)] := by
  with_unfolding_all decide

/-- C3 (amended): the ranking order sorts class indices by probability
descending, and among equal probabilities the class with the HIGHER original
index appears earlier — `argsort()[::-1]` reverses a stable ascending sort,
so the ascending tie order (lower index first) comes out reversed. -/
theorem claim_C3_tie_break (p : List ℚ) :
    List.Sorted (fun i j => p.getD j 0 < p.getD i 0 ∨
      (p.getD i 0 = p.getD j 0 ∧ j ≤ i)) (argsortDesc p) ∧
    (argsortDesc p).Perm (List.range p.length) := by
  constructor
  · refine List.Pairwise.imp ?_ (argsortDesc_sorted p)
    intro i j hij
    rcases hij with h | ⟨h, hle⟩
    · exact Or.inl h
    · exact Or.inr ⟨h.symm, hle⟩
  · exact argsortDesc_perm p

/-- The pipeline used by the C4 counterexample: a fitted classifier whose
learned class order is ["A", "B"]. -/
def cexPipeline : SkPipeline :=
  { named_steps := some [("classifier", { classes_ := some ["A", "B"] })]
    predict_proba := none
    predict := fun _ => "A" }

/-- C4 (counterexample): the explicit label list stored by `save_artifacts`
is ignored on load — saving labels ["B", "A"] alongside a classifier whose
learned order is ["A", "B"] and re-loading recovers ["A", "B"], not the
stored list, although the explicit label list was present. -/
theorem claim_C4_counterexample :
    get_class_names (load_pipeline (save_artifacts cexPipeline ["B", "A"])) =
      some ["A", "B"] ∧
    (some ["A", "B"] : Option (List String)) ≠ some ["B", "A"] :=
  ⟨rfl, by decide⟩

/-- C4 (amended): `save_artifacts` writes one container holding the fitted
pipeline and the training-time label order; `load_pipeline` accepts that
container or a bare pipeline and returns the pipeline unchanged — hence
inference behaviour after load is identical — while the recovered class
order always comes from the classifier's own learned state (`classes_`),
the stored explicit list being ignored even when present. -/
theorem claim_C4_round_trip (p : SkPipeline) (labels : List String) :
    load_pipeline (save_artifacts p labels) = p ∧
    load_pipeline (.bare p) = p ∧
    (load_pipeline (save_artifacts p labels)).predict_proba = p.predict_proba ∧
    (∀ x, (load_pipeline (save_artifacts p labels)).predict x = p.predict x) ∧
    get_class_names (load_pipeline (save_artifacts p labels)) =
      get_class_names p :=
  ⟨rfl, rfl, rfl, fun _ => rfl, rfl⟩

/-- C5: for a fixed seed (with the fixed catalog and vocabulary of
`SETTINGS`) and fixed overrides, two invocations of `synthesize_dataset`
produce identical output — the same merchants, descriptions, amounts,
timestamps and labels in the same order — regardless of the generator state
each invocation starts from. -/
theorem claim_C5_determinism (default_samples_per_category : ℕ)
    (per_category_overrides : List (String × ℕ)) (seed : ℕ) (σ1 σ2 : RNG) :
    synthesize_dataset default_samples_per_category per_category_overrides
      (some seed) σ1 =
    synthesize_dataset default_samples_per_category per_category_overrides
      (some seed) σ2 := rfl

/-- C6: every record produced by `synthesize_dataset` — the per-category
block and the appended hand-authored edge-case records — carries a label
from the configured category catalog. -/
theorem claim_C6_catalog_closed (default_samples_per_category : ℕ)
    (per_category_overrides : List (String × ℕ)) (seed : Option ℕ) (σ : RNG) :
    ∀ r ∈ (synthesize_dataset default_samples_per_category
      per_category_overrides seed σ).1, r.label ∈ SETTINGS.categories := by
  intro r hr
  simp only [synthesize_dataset] at hr
  rcases List.mem_append.mp hr with h | h
  · exact synthCatsLoop_label _ _ _ _ _ r h
  · exact edgeRows_label _ r h

/-- C6 (witness): a concrete run containing a concrete member record. -/
theorem claim_C6_witness :
    (⟨"2025-08-17T19:00:00", "HSBC", "PAYROLL BACS CREDIT", -1350,
      "Income"⟩ : Row) ∈ (synthesize_dataset 0 [] (some 0) 0).1 ∧
    "Income" ∈ SETTINGS.categories :=
  ⟨by with_unfolding_all decide,
   claim_C6_catalog_closed 0 [] (some 0) 0
     ⟨"2025-08-17T19:00:00", "HSBC", "PAYROLL BACS CREDIT", -1350, "Income"⟩
     (by with_unfolding_all decide)⟩

/-- C7: for every probability vector over at least one class and every
requested k ≥ 1, the ranker returns exactly min(k, n) (category,
probability) pairs in non-increasing probability order, and the first pair
is the one surfaced as the single top-1 answer. -/
theorem claim_C7_topk (proba : List ℚ) (class_names : Option (List String))
    (topk : ℕ) (hk : 1 ≤ topk) (hp : proba ≠ []) :
    (rank_topk proba class_names topk).length = min topk proba.length ∧
    List.Sorted (fun a b : String × ℚ => b.2 ≤ a.2)
      (rank_topk proba class_names topk) ∧
    rank_topk proba class_names topk ≠ [] ∧
    rank_top1 proba class_names topk =
      (rank_topk proba class_names topk).head? := by
  have hlen := rank_topk_length proba class_names topk
  have hpos : 0 < min topk proba.length := by
    have := List.length_pos.mpr hp
    omega
  exact ⟨hlen, rank_topk_sorted proba class_names topk,
    List.length_pos.mp (hlen ▸ hpos), rfl⟩

/-- C7 (witness): the concrete spec examples — probabilities [0.1, 0.5, 0.4]
over classes [A, B, C] with k = 2 give [(B, 0.5), (C, 0.4)] and top1 =
(B, 0.5); k = 20 against a 9-class vector is clamped to exactly 9 entries. -/
theorem claim_C7_witness :
    ((rank_topk [1/10, 1/2, 2/5] (some ["A", "B", "C"]) 2).length =
        min 2 ([(1 : ℚ)/10, 1/2, 2/5].length) ∧
      List.Sorted (fun a b : String × ℚ => b.2 ≤ a.2)
        (rank_topk [1/10, 1/2, 2/5] (some ["A", "B", "C"]) 2) ∧
      rank_topk [1/10, 1/2, 2/5] (some ["A", "B", "C"]) 2 ≠ [] ∧
      rank_top1 [1/10, 1/2, 2/5] (some ["A", "B", "C"]) 2 =
        (rank_topk [1/10, 1/2, 2/5] (some ["A", "B", "C"]) 2).head?) ∧
    rank_topk [1/10, 1/2, 2/5] (some ["A", "B", "C"]) 2 =
      [("B", 1/2), ("C", 2/5)] ∧
    rank_top1 [1/10, 1/2, 2/5] (some ["A", "B", "C"]) 2 = some ("B", 1/2) ∧
    (rank_topk (List.replicate 9 (1/9))
      (some ["c0", "c1", "c2", "c3", "c4", "c5", "c6", "c7", "c8"]) 20).length
      = 9 :=
  ⟨claim_C7_topk [1/10, 1/2, 2/5] (some ["A", "B", "C"]) 2 (by decide)
      (by with_unfolding_all decide),
   by with_unfolding_all decide, by with_unfolding_all decide,
   by with_unfolding_all decide⟩

/-- C8 (counterexample): when the bounds are not exactly representable at
the rounding precision the claimed inclusive-range property fails: sampling
in [0.006, 0.009] with 2 decimal places (sign 1) returns 0.01 > 0.009. -/
theorem claim_C8_counterexample :
    choose_random_amount (6/1000) (9/1000) (some 2) 1 0 = .ok (1/100, 12345) ∧
    (9 : ℚ)/1000 < 1/100 := by
  with_unfolding_all decide

/-- C8 (amended): `choose_random_amount` raises ValueError on negative
decimal places before sampling; otherwise it normalizes inverted bounds,
samples, applies the sign and rounds, returning a value exact at the
requested precision that stays inside the sign-adjusted inclusive range
WHENEVER both bounds are exactly representable at that precision — as the
bounds of every configured category spec are, so `rand_amount` satisfies the
claimed bounds and precision for every category. -/
theorem claim_C8_amount (lower_bound upper_bound : ℚ) (dp : ℤ) (sign : ℤ)
    (σ : RNG) (hsign : sign = 1 ∨ sign = -1) :
    (dp < 0 → choose_random_amount lower_bound upper_bound (some dp) sign σ =
      .error "decimal_places must be >= 0") ∧
    (0 ≤ dp → ∃ v σ2,
      choose_random_amount lower_bound upper_bound (some dp) sign σ =
        .ok (v, σ2) ∧
      (v * 10 ^ dp.toNat).den = 1 ∧
      ((lower_bound * 10 ^ dp.toNat).den = 1 →
       (upper_bound * 10 ^ dp.toNat).den = 1 →
        min ((sign : ℚ) * lower_bound) ((sign : ℚ) * upper_bound) ≤ v ∧
        v ≤ max ((sign : ℚ) * lower_bound) ((sign : ℚ) * upper_bound))) ∧
    (∀ category : String, ∃ v σ2,
      rand_amount category none σ = .ok (v, σ2) ∧
      (v * 10 ^ 2).den = 1 ∧
      min (((get_amount_spec category).sign : ℚ) * (get_amount_spec category).low)
        (((get_amount_spec category).sign : ℚ) * (get_amount_spec category).high)
        ≤ v ∧
      v ≤ max (((get_amount_spec category).sign : ℚ) * (get_amount_spec category).low)
        (((get_amount_spec category).sign : ℚ) * (get_amount_spec category).high)) := by
  refine ⟨fun hneg => ?_, fun hpos => ?_,
    fun category => rand_amount_ok category σ⟩
  · simp only [choose_random_amount, Option.getD_some]
    rw [if_pos hneg]
  · have h := choose_random_amount_ok lower_bound upper_bound (some dp) sign σ
      hsign (by simpa using hpos)
    simpa using h

/-- C8 (witness): the Groceries-shaped spec (8, 120, sign −1, 2 places) at a
concrete generator state, with its concrete evaluation. -/
theorem claim_C8_witness :
    (¬ ((2 : ℤ) < 0) ∧ ((-1 : ℤ) = 1 ∨ (-1 : ℤ) = -1)) ∧
    (∃ v σ2, choose_random_amount 8 120 (some 2) (-1) 0 = .ok (v, σ2) ∧
      (v * 10 ^ (2 : ℤ).toNat).den = 1 ∧
      (((8 : ℚ) * 10 ^ (2 : ℤ).toNat).den = 1 →
       ((120 : ℚ) * 10 ^ (2 : ℤ).toNat).den = 1 →
        min (((-1 : ℤ) : ℚ) * 8) (((-1 : ℤ) : ℚ) * 120) ≤ v ∧
        v ≤ max (((-1 : ℤ) : ℚ) * 8) (((-1 : ℤ) : ℚ) * 120))) ∧
    choose_random_amount 8 120 (some 2) (-1) 0 = .ok (-8, 12345) :=
  ⟨⟨by decide, Or.inr rfl⟩,
   (claim_C8_amount 8 120 2 (-1) 0 (Or.inr rfl)).2.1 (by decide),
   by with_unfolding_all decide⟩

/-- C9: under the configured settings, the hour-selection step of
`rand_time` always succeeds — the out-of-range ValueError branch is
unreachable — with an hour in [0, 23], and for a category with an explicit
hour-candidate list the sampled hour belongs to that list. -/
theorem claim_C9_hour_bounds (category : String) (σ : RNG) :
    ∃ h σ2, rand_time_hour category σ = .ok (h, σ2) ∧ 0 ≤ h ∧ h ≤ 23 ∧
      (∀ hours, SETTINGS.time.hour_choices.lookup category = some hours →
        h ∈ hours) :=
  rand_time_hour_spec category σ

/-- C9 (witness): concrete evaluation for the Transport category, which has
an explicit hour list. -/
theorem claim_C9_witness :
    (∃ h σ2, rand_time_hour "Transport" 0 = .ok (h, σ2) ∧ 0 ≤ h ∧ h ≤ 23 ∧
      (∀ hours, SETTINGS.time.hour_choices.lookup "Transport" = some hours →
        h ∈ hours)) ∧
    rand_time_hour "Transport" 0 = .ok (23, 12345) ∧
    (23 : ℤ) ∈ [7, 8, 9, 22, 23, 0, 1] :=
  ⟨claim_C9_hour_bounds "Transport" 0, by with_unfolding_all decide, by decide⟩

/-- The pipeline used by the C10 witness: steps are present but the final
"classifier" step has no fitted `classes_`. -/
def noLabelPipeline : SkPipeline :=
  { named_steps := some [("classifier", { classes_ := none })]
    predict_proba := none
    predict := fun _ => "0" }

/-- C10: if the loaded model exposes no retrievable class labels — no
"classifier" step carrying `classes_` — then `get_class_names` returns
`None`, and the top-k output is still the full clamped list with each
category field the decimal string of the class index. -/
theorem claim_C10_index_fallback (p : SkPipeline) (proba : List ℚ)
    (topk : ℕ)
    (hno : ∀ steps, p.named_steps = some steps →
      ∀ clf, steps.lookup "classifier" = some clf → clf.classes_ = none) :
    get_class_names p = none ∧
    rank_topk proba (get_class_names p) topk =
      ((argsortDesc proba).take (min topk proba.length)).map
        (fun i => (toString i, proba.getD i 0)) ∧
    (rank_topk proba (get_class_names p) topk).length =
      min topk proba.length := by
  have hnone : get_class_names p = none := by
    unfold get_class_names
    rcases hs : p.named_steps with _ | steps
    · rfl
    · show (match List.lookup "classifier" steps with
        | some clf => clf.classes_
        | none => none) = none
      rcases hc : List.lookup "classifier" steps with _ | clf
      · rfl
      · exact hno steps hs clf hc
  refine ⟨hnone, ?_, rank_topk_length proba _ topk⟩
  rw [hnone]
  rfl

/-- C10 (witness): an unfitted-classifier pipeline with a concrete
probability vector; the response categories are index strings. -/
theorem claim_C10_witness :
    (get_class_names noLabelPipeline = none ∧
      rank_topk [1/2, 1/3, 1/6] (get_class_names noLabelPipeline) 2 =
        ((argsortDesc [1/2, 1/3, 1/6]).take
          (min 2 ([(1 : ℚ)/2, 1/3, 1/6].length))).map
          (fun i => (toString i, [(1 : ℚ)/2, 1/3, 1/6].getD i 0)) ∧
      (rank_topk [1/2, 1/3, 1/6] (get_class_names noLabelPipeline) 2).length =
        min 2 ([(1 : ℚ)/2, 1/3, 1/6].length)) ∧
    rank_topk [1/2, 1/3, 1/6] (none : Option (List String)) 2 =
      [("0", 1/2), ("1", 1/3)] :=
  ⟨claim_C10_index_fallback noLabelPipeline [1/2, 1/3, 1/6] 2
      (fun steps hs clf hc => by
        injection hs with hs
        subst hs
        have h2 : List.lookup "classifier"
            [("classifier", ({ classes_ := none } : SkClassifier))] =
            some { classes_ := none } := rfl
        rw [h2] at hc
        injection hc with hc
        rw [← hc]),
   by with_unfolding_all decide⟩

end PfmMl
